import Mathlib

/-!
Verification of the COCO bounding-box visualizer (`find_coco_json.py`).

The script is a single-file pipeline: locate the annotation JSON in a folder,
load and validate it, index its sections, assign colors to categories, and
render one overlay figure per image.  Below, each Python function is embedded
as an executable Lean definition over explicit data:

* Python dicts keyed by integers are association lists with Python's
  insertion-order / overwrite semantics (`pyDictInsert`, `pyGet`).
* `matplotlib` drawing calls are recorded as pure data (`Rect`, `TagBox`,
  `TxtItem`) collected in a `Fig` value; pixel quantities are rationals.
* The file system is a parameter (`FS`): which paths exist, and what decoding
  an image at a path yields.
* Exceptions are `Except`: an uncaught Python exception is `Except.error`,
  a normal return is `Except.ok` (so `main` finishing with exit code 0
  corresponds to `Except.ok`).
-/

namespace CocoViz

/-- A single-quote character as a string (used in error messages). -/
def sq : String := (Char.ofNat 39).toString

/-- Python `s.split(sep)` for a one-character separator, on char lists.
`split` never returns an empty list: `"".split(",") == [""]`. -/
def splitChar (sep : Char) : List Char → List (List Char)
  | [] => [[]]
  | c :: rest =>
    match splitChar sep rest with
    | [] => [[]]
    | g :: gs => if c == sep then [] :: g :: gs else (c :: g) :: gs

/-- Python `s.strip()`: drop leading and trailing whitespace. -/
def pyStrip (l : List Char) : List Char :=
  ((l.dropWhile Char.isWhitespace).reverse.dropWhile Char.isWhitespace).reverse

/-- Python `s.strip(c)` for a single character `c`: drop every leading and
trailing occurrence of `c`. -/
def stripChar (c : Char) (s : String) : String :=
  String.mk (((s.data.dropWhile (· == c)).reverse.dropWhile (· == c)).reverse)

/-- COCO bbox `[x, y, width, height]`, pixel units, top-left origin. -/
structure BBox where
  x : ℚ
  y : ℚ
  w : ℚ
  h : ℚ
  deriving Repr, DecidableEq

/-- An entry of the `"annotations"` section.  `category_id` and the
annotation's own `id` are accessed with `dict.get` in the script, hence
`Option`. -/
structure Ann where
  image_id : Nat
  category_id : Option Nat
  ann_id : Option Nat
  bbox : BBox
  deriving Repr, DecidableEq

/-- An entry of the `"images"` section. -/
structure CocoImage where
  id : Nat
  file_name : String
  deriving Repr, DecidableEq

/-- An entry of the `"categories"` section. -/
structure Cat where
  id : Nat
  name : String
  deriving Repr, DecidableEq

/-- The decoded annotation file after `load_coco` (its three sections). -/
structure Coco where
  images : List CocoImage
  anns : List Ann
  cats : List Cat
  deriving Repr, DecidableEq

/-- Result of `Image.open(path).convert("RGB")`: a raster with its pixel
dimensions. -/
structure PILImg where
  width : ℚ
  height : ℚ
  deriving Repr, DecidableEq

/-- The file system as seen by the script: which paths exist
(`Path.exists`), and what decoding the image at a path yields
(`Image.open`, as an `Except`). -/
structure FS where
  ex : String → Bool
  decode : String → Except String PILImg

/-- Python dict assignment `m[k] = v` on an association list: an existing
key keeps its position and gets the new value, a new key is appended. -/
def pyDictInsert {α : Type} : List (Nat × α) → Nat → α → List (Nat × α)
  | [], k, v => [(k, v)]
  | (k', v') :: rest, k, v =>
    if k' = k then (k', v) :: rest else (k', v') :: pyDictInsert rest k v

/-- Python dict lookup `m.get(k)` on an association list. -/
def pyGet {α : Type} (m : List (Nat × α)) (k : Nat) : Option α :=
  (m.find? (fun p => p.1 == k)).map (·.2)

/-- Helper for the dict comprehensions in `build_indices`:
`{x_key: x for x in l}`. -/
def buildById {α : Type} (key : α → Nat) (l : List α) : List (Nat × α) :=
  l.foldl (fun m x => pyDictInsert m (key x) x) []

/-- `images_by_id = {img["id"]: img for img in coco["images"]}`. -/
def images_by_id (imgs : List CocoImage) : List (Nat × CocoImage) :=
  buildById CocoImage.id imgs

/-- `categories_by_id = {cat["id"]: cat for cat in coco["categories"]}`. -/
def categories_by_id (cats : List Cat) : List (Nat × Cat) :=
  buildById Cat.id cats

/-- `defaultdict(list)` append `m[k].append(a)`: a present key keeps its
position and its list grows at the end; an absent key is appended with the
one-element list (the defaultdict materializes it on first access). -/
def groupAdd (m : List (Nat × List Ann)) (k : Nat) (a : Ann) :
    List (Nat × List Ann) :=
  match m with
  | [] => [(k, [a])]
  | (k', l) :: rest =>
    if k' = k then (k', l ++ [a]) :: rest else (k', l) :: groupAdd rest k a

/-- The `anns_by_image` loop of `build_indices`. -/
def anns_by_image (anns : List Ann) : List (Nat × List Ann) :=
  anns.foldl (fun m a => groupAdd m a.image_id a) []

/-- `anns_by_image.get(img_id, [])` as used in `main`. -/
def lookupAnns (m : List (Nat × List Ann)) (k : Nat) : List Ann :=
  (pyGet m k).getD []

/-- The 10-color fallback palette `[f"C{i}" for i in range(10)]`. -/
def fallbackPalette : List String :=
  ["C0", "C1", "C2", "C3", "C4", "C5", "C6", "C7", "C8", "C9"]

/-- `colors = plt.rcParams[...] or fallback`: the palette actually cycled,
never empty. -/
def effectiveColors (colors : List String) : List String :=
  if colors = [] then fallbackPalette else colors

/-- The assignment loop of `category_color_map`: walk `ids` in the given
order, handing out `cs[i]`, `cs[i+1]`, ... cyclically (`itertools.cycle`). -/
def assignColors (cs : List String) : List Nat → Nat → List (Nat × String)
  | [], _ => []
  | cid :: rest, i => (cid, cs.getD (i % cs.length) "") :: assignColors cs rest (i + 1)

/-- Python `sorted` on integer keys. -/
def sortNat (l : List Nat) : List Nat :=
  List.insertionSort (· ≤ ·) l

/-- `category_color_map`: map each category id (in ascending order) to the
next color of the cyclic palette.  The palette list is a parameter since the
script reads it from matplotlib's global configuration. -/
def category_color_map (colors : List String) (cats_by_id : List (Nat × Cat)) :
    List (Nat × String) :=
  assignColors (effectiveColors colors) (sortNat (cats_by_id.map (·.1))) 0

/-- `color_map.get(cat_id, "white")`, with `cat_id` possibly absent from the
annotation (`ann.get("category_id")` is `None` then, matching no integer
key). -/
def colorOf (cmap : List (Nat × String)) (cid : Option Nat) : String :=
  match cid with
  | none => "white"
  | some c => (pyGet cmap c).getD "white"

/-- Python `str(x)` for the optional integer category id (`str(None)` is
the string `None`). -/
def pyStr : Option Nat → String
  | none => "None"
  | some n => toString n

/-- `categories_by_id.get(cat_id, {}).get("name", str(cat_id))`: the
category's name, or `str(cat_id)` when the id is unmapped. -/
def catNameOf (cats : List (Nat × Cat)) (cid : Option Nat) : String :=
  match cid with
  | none => "None"
  | some c =>
    match pyGet cats c with
    | some cat => cat.name
    | none => pyStr (some c)

/-- `f"{ann.get('id', '')}"`: the annotation id rendered as text, empty when
absent. -/
def idStrOf : Option Nat → String
  | none => ""
  | some n => toString n

/-- `label = f"{cat_name}#{ann_id}".strip("#")`. -/
def labelOf (cats : List (Nat × Cat)) (a : Ann) : String :=
  stripChar '#' (catNameOf cats a.category_id ++ "#" ++ idStrOf a.ann_id)

/-- One `patches.Rectangle` call (the bbox outline). -/
structure Rect where
  xy : ℚ × ℚ
  w : ℚ
  h : ℚ
  linewidth : ℚ
  edgecolor : String
  facecolor : String
  deriving Repr, DecidableEq

/-- One `patches.FancyBboxPatch` call (the filled label background). -/
structure TagBox where
  xy : ℚ × ℚ
  w : ℚ
  h : ℚ
  linewidth : ℚ
  facecolor : String
  alpha : ℚ
  deriving Repr, DecidableEq

/-- One `ax.text` call (the label text). -/
structure TxtItem where
  pos : ℚ × ℚ
  text : String
  fontsize : ℚ
  color : String
  deriving Repr, DecidableEq

/-- The matplotlib figure built by `draw_image_with_bboxes`: its size in
inches, and the drawing calls issued on its axes, in order. -/
structure Fig where
  figsize : ℚ × ℚ
  dpi : ℚ
  rects : List Rect
  tags : List TagBox
  texts : List TxtItem
  deriving Repr, DecidableEq

/-- `draw_image_with_bboxes(img_path, anns, categories_by_id, color_map, dpi)`.
Decoding the image is the `dec` parameter; a decode failure re-raises as
`RuntimeError(f"Failed to open image ...")`, which nothing in the script
catches.  The numeric literals mirror the source: line width
`max(1.5, min(w, h) * 0.002)`, tag at `(x, max(0, y - 18))` sized
`max(40, len(label) * 7) x 18` with `alpha=0.8`, text at
`(x + 4, max(12, y - 4))` with `fontsize=9`. -/
def draw_image_with_bboxes (dec : String → Except String PILImg)
    (img_path : String) (anns : List Ann) (cats : List (Nat × Cat))
    (cmap : List (Nat × String)) (dpi : ℚ) : Except String Fig :=
  match dec img_path with
  | .error e =>
    .error ("Failed to open image " ++ sq ++ img_path ++ sq ++ ": " ++ e)
  | .ok im =>
    .ok
      { figsize := (im.width / dpi, im.height / dpi)
        dpi := dpi
        rects := anns.map (fun a =>
          { xy := (a.bbox.x, a.bbox.y)
            w := a.bbox.w
            h := a.bbox.h
            linewidth := max (3 / 2 : ℚ) (min im.width im.height * (2 / 1000))
            edgecolor := colorOf cmap a.category_id
            facecolor := "none" })
        tags := anns.map (fun a =>
          { xy := (a.bbox.x, max 0 (a.bbox.y - 18))
            w := max 40 (((labelOf cats a).length : ℚ) * 7)
            h := 18
            linewidth := 0
            facecolor := colorOf cmap a.category_id
            alpha := 4 / 5 })
        texts := anns.map (fun a =>
          { pos := (a.bbox.x + 4, max 12 (a.bbox.y - 4))
            text := labelOf cats a
            fontsize := 9
            color := "black" }) }

/-- Locator failures: `FileNotFoundError` / the `RuntimeError` for multiple
ambiguous files. -/
inductive LocErr where
  | notFound (msg : String)
  | ambiguous (msg : String)
  deriving Repr, DecidableEq

/-- The message of the ambiguous-input `RuntimeError`, listing every
candidate file name. -/
def ambigMsg (jsons : List String) : String :=
  "Multiple .json files found: " ++ String.intercalate ", " jsons ++
    ". Keep only one or rename the desired file to " ++ sq ++ "annotations.json" ++ sq ++ "."

/-- `find_coco_json(folder)`, over the list of `*.json` file names the glob
returned. -/
def find_coco_json (jsons : List String) : Except LocErr String :=
  if jsons.length = 0 then
    .error (.notFound "No .json file found")
  else if jsons.length > 1 then
    let preferred := jsons.filter (fun p => p == "annotations.json" || p == "coco.json")
    match preferred with
    | [p] => .ok p
    | _ => .error (.ambiguous (ambigMsg jsons))
  else
    match jsons with
    | p :: _ => .ok p
    | [] => .error (.notFound "No .json file found")

/-- Does the parsed JSON object have this top-level key? -/
def hasKey {α : Type} (d : List (String × α)) (k : String) : Bool :=
  d.any (fun p => p.1 == k)

/-- The three keys `load_coco` checks, in the order of its loop. -/
def requiredKeys : List String :=
  ["images", "annotations", "categories"]

/-- The `ValueError` message for a missing section. -/
def missingMsg (k : String) : String :=
  "COCO file missing " ++ sq ++ k ++ sq ++ " section"

/-- `load_coco` after JSON parsing: check the three required keys in order,
raising on the first missing one, and otherwise return the data unchanged. -/
def load_coco {α : Type} (data : List (String × α)) :
    Except String (List (String × α)) :=
  match requiredKeys.find? (fun k => ! hasKey data k) with
  | some k => .error (missingMsg k)
  | none => .ok data

/-- `{name.strip() for name in args.subset.split(",") if name.strip()}`
(as a list; only membership matters). -/
def parseSubset (s : String) : List String :=
  ((splitChar ',' s.data).map (fun l => String.mk (pyStrip l))).filter
    (fun t => t ≠ "")

/-- `allowed_names`: `None` without `--subset`; Python's `if args.subset:`
treats the empty string as false, so only a non-empty argument is parsed. -/
def mkAllowed (subset : Option String) : Option (List String) :=
  match subset with
  | none => none
  | some s => if s = "" then none else some (parseSubset s)

/-- The guard `if allowed_names and file_name not in allowed_names: continue`:
an image passes unless `allowed_names` is a non-empty set not containing its
file name (an empty set is falsy and disables the filter). -/
def passesFilter (allowed : Option (List String)) (name : String) : Bool :=
  match allowed with
  | none => true
  | some l => if l.isEmpty then true else l.contains name

/-- `folder / file_name`. -/
def pathOf (folder name : String) : String :=
  folder ++ "/" ++ name

/-- Is an `Except` a success? -/
def exOk {ε α : Type} : Except ε α → Bool
  | .ok _ => true
  | .error _ => false

/-- The per-image loop of `main`: walk the entries of `images_by_id` in
order, skipping filtered-out images, accumulating missing files in the
warning list, rendering the rest, and counting renders.  An exception
escaping `draw_image_with_bboxes` propagates (`Except.error`); a normal
finish returns `(processed, missing_images)` and `main` goes on to print the
warnings and exit 0. -/
def processImages (fs : FS) (folder : String) (allowed : Option (List String))
    (cats : List (Nat × Cat)) (cmap : List (Nat × String))
    (abi : List (Nat × List Ann)) (dpi : ℚ) :
    List (Nat × CocoImage) → Nat → List String → Except String (Nat × List String)
  | [], processed, missing => .ok (processed, missing)
  | (iid, img) :: rest, processed, missing =>
    if passesFilter allowed img.file_name = false then
      processImages fs folder allowed cats cmap abi dpi rest processed missing
    else if fs.ex (pathOf folder img.file_name) = false then
      processImages fs folder allowed cats cmap abi dpi rest processed
        (missing ++ [img.file_name])
    else
      match draw_image_with_bboxes fs.decode (pathOf folder img.file_name)
          (lookupAnns abi iid) cats cmap dpi with
      | .error e => .error e
      | .ok _ =>
        processImages fs folder allowed cats cmap abi dpi rest (processed + 1) missing

/-- `main` after a successful locate/load (lines 136-184): build the
indices and the color map, parse the subset filter, and run the image loop.
`Except.ok (processed, missing)` means the process reaches its final
warnings and exits 0. -/
def runMain (fs : FS) (folder : String) (colors : List String)
    (subset : Option String) (coco : Coco) (dpi : ℚ) :
    Except String (Nat × List String) :=
  let ibi := images_by_id coco.images
  let abi := anns_by_image coco.anns
  let cbi := categories_by_id coco.cats
  let cmap := category_color_map colors cbi
  let allowed := mkAllowed subset
  processImages fs folder allowed cbi cmap abi dpi ibi 0 []

/-- Transcription of the claim wording for the label text (C9): the text is
`<category name>#<annotation id>` with the separator omitted when either
part is empty.  Stated for comparison with the code's `strip("#")` label. -/
def specLabel (name idStr : String) : String :=
  if name = "" then idStr
  else if idStr = "" then name
  else name ++ "#" ++ idStr

/-- Example decoder: every path decodes to a 100x50 raster. -/
def exDec : String → Except String PILImg := fun _ => .ok ⟨100, 50⟩

/-- Example annotation with bbox `[10, 20, 30, 40]`, category 7, id 3. -/
def exAnn : Ann := ⟨1, some 7, some 3, ⟨10, 20, 30, 40⟩⟩

/-- Example `categories_by_id` index. -/
def exCats : List (Nat × Cat) := [(7, ⟨7, "cat"⟩)]

/-- Example color map. -/
def exCmap : List (Nat × String) := [(7, "C0")]

/-- The figure `draw_image_with_bboxes exDec "p" [exAnn] exCats exCmap 120`
produces, written out. -/
def exFig : Fig :=
  { figsize := (100 / 120, 50 / 120)
    dpi := 120
    rects := [{ xy := (10, 20)
                w := 30
                h := 40
                linewidth := max (3 / 2 : ℚ) (min 100 50 * (2 / 1000))
                edgecolor := "C0"
                facecolor := "none" }]
    tags := [{ xy := (10, max 0 (20 - 18))
               w := max 40 ((("cat#3" : String).length : ℚ) * 7)
               h := 18
               linewidth := 0
               facecolor := "C0"
               alpha := 4 / 5 }]
    texts := [{ pos := (10 + 4, max 12 (20 - 4))
                text := "cat#3"
                fontsize := 9
                color := "black" }] }

/-!  Association-list facts about the Python dict model. -/

theorem pyGet_nil {α : Type} (q : Nat) : pyGet ([] : List (Nat × α)) q = none := rfl

theorem pyGet_cons {α : Type} (a : Nat) (b : α) (t : List (Nat × α)) (q : Nat) :
    pyGet ((a, b) :: t) q = if a = q then some b else pyGet t q := by
  by_cases h : a = q
  · simp [pyGet, List.find?, h]
  · have hb : (a == q) = false := by simp [h]
    simp [pyGet, List.find?, hb, h]

theorem pyGet_pyDictInsert {α : Type} (m : List (Nat × α)) (k : Nat) (v : α) (q : Nat) :
    pyGet (pyDictInsert m k v) q = if q = k then some v else pyGet m q := by
  induction m with
  | nil =>
    by_cases h : q = k
    · simp [pyDictInsert, pyGet_cons, h]
    · have h2 : ¬ k = q := fun h2 => h h2.symm
      simp [pyDictInsert, pyGet_cons, h, h2]
  | cons p t ih =>
    obtain ⟨a, b⟩ := p
    by_cases hak : a = k
    · subst hak
      rw [pyDictInsert, if_pos rfl, pyGet_cons, pyGet_cons]
      by_cases hq : a = q
      · rw [if_pos hq, if_pos hq.symm]
      · have h2 : ¬ q = a := fun h2 => hq h2.symm
        rw [if_neg hq, if_neg h2, if_neg hq]
    · rw [pyDictInsert, if_neg hak, pyGet_cons, pyGet_cons, ih]
      by_cases hq : a = q
      · have h2 : ¬ q = k := fun h2 => hak (hq.trans h2)
        rw [if_pos hq, if_neg h2, if_pos hq]
      · by_cases hqk : q = k
        · rw [if_neg hq, if_pos hqk, if_pos hqk]
        · rw [if_neg hq, if_neg hqk, if_neg hqk, if_neg hq]

theorem pyGet_foldl_insert {α : Type} (key : α → Nat) (l : List α)
    (m : List (Nat × α)) (k : Nat) :
    pyGet (l.foldl (fun m x => pyDictInsert m (key x) x) m) k =
      (l.reverse.find? (fun x => key x == k)).or (pyGet m k) := by
  induction l generalizing m with
  | nil => simp
  | cons x t ih =>
    simp only [List.foldl_cons, ih, List.reverse_cons, List.find?_append]
    cases h : t.reverse.find? (fun x => key x == k) with
    | some a => simp [Option.or]
    | none =>
      simp only [Option.none_or]
      by_cases hx : key x = k
      · simp [List.find?, hx, pyGet_pyDictInsert]
      · have hb : (key x == k) = false := by simp [hx]
        have h2 : ¬ k = key x := fun h2 => hx h2.symm
        simp [List.find?, hb, pyGet_pyDictInsert, h2]

theorem pyGet_buildById {α : Type} (key : α → Nat) (l : List α) (k : Nat) :
    pyGet (buildById key l) k = l.reverse.find? (fun x => key x == k) := by
  rw [buildById, pyGet_foldl_insert, pyGet_nil]
  cases l.reverse.find? (fun x => key x == k) <;> rfl

theorem lookupAnns_groupAdd (m : List (Nat × List Ann)) (k : Nat) (a : Ann) (q : Nat) :
    lookupAnns (groupAdd m k a) q =
      if q = k then lookupAnns m q ++ [a] else lookupAnns m q := by
  induction m with
  | nil =>
    by_cases h : q = k
    · simp [groupAdd, lookupAnns, pyGet_cons, h, pyGet]
    · have h2 : ¬ k = q := fun h2 => h h2.symm
      simp [groupAdd, lookupAnns, pyGet_cons, h, h2, pyGet_nil]
  | cons p t ih =>
    obtain ⟨b, l⟩ := p
    by_cases hbk : b = k
    · subst hbk
      rw [groupAdd, if_pos rfl]
      unfold lookupAnns
      rw [pyGet_cons, pyGet_cons]
      by_cases hq : b = q
      · rw [if_pos hq, if_pos hq, if_pos hq.symm]
        simp
      · have h2 : ¬ q = b := fun h2 => hq h2.symm
        rw [if_neg hq, if_neg hq, if_neg h2]
    · rw [groupAdd, if_neg hbk]
      unfold lookupAnns at ih ⊢
      rw [pyGet_cons, pyGet_cons]
      by_cases hq : b = q
      · have h2 : ¬ q = k := fun h2 => hbk (hq.trans h2)
        rw [if_pos hq, if_pos hq, if_neg h2]
      · rw [if_neg hq, if_neg hq, ih]

theorem lookupAnns_foldl (anns : List Ann) (m : List (Nat × List Ann)) (q : Nat) :
    lookupAnns (anns.foldl (fun m a => groupAdd m a.image_id a) m) q =
      lookupAnns m q ++ anns.filter (fun a => a.image_id == q) := by
  induction anns generalizing m with
  | nil => simp
  | cons a t ih =>
    simp only [List.foldl_cons, ih, lookupAnns_groupAdd]
    by_cases h : q = a.image_id
    · have hb : (a.image_id == q) = true := by simp [h.symm]
      simp [h, hb, List.filter_cons, List.append_assoc]
    · have hb : (a.image_id == q) = false := by
        have h2 : ¬ a.image_id = q := fun h2 => h h2.symm
        simp [h2]
      simp [h, hb, List.filter_cons]

/-- C7: the Indexer.  `anns_by_image` maps each image id to exactly the
annotations referencing it, in their original relative order (the
order-preserving `filter` of the `"annotations"` section); an id no
annotation references gets `[]` (the filter is then empty).  `images_by_id`
and `categories_by_id` map an id to the last entry bearing it
(`reverse.find?` is the last matching entry), with no uniqueness
enforcement. -/
theorem c7_indexer (anns : List Ann) (imgs : List CocoImage) (cats : List Cat)
    (iid k kc : Nat) :
    lookupAnns (anns_by_image anns) iid = anns.filter (fun a => a.image_id == iid) ∧
    pyGet (images_by_id imgs) k = imgs.reverse.find? (fun i => i.id == k) ∧
    pyGet (categories_by_id cats) kc = cats.reverse.find? (fun c => c.id == kc) := by
  refine ⟨?_, pyGet_buildById _ _ _, pyGet_buildById _ _ _⟩
  rw [anns_by_image, lookupAnns_foldl]
  rfl

/-- C4: the Locator.  Zero candidates fail with `NotFound`; a single
candidate is returned whatever its name; with several candidates, a unique
preferred name (`annotations.json` / `coco.json`) is returned, and otherwise
the run fails with `AmbiguousInput` whose message (`ambigMsg`) lists every
candidate name. -/
theorem c4_locator (jsons : List String) :
    (jsons = [] → find_coco_json jsons = .error (.notFound "No .json file found")) ∧
    (∀ x, jsons = [x] → find_coco_json jsons = .ok x) ∧
    (1 < jsons.length →
      (∀ p, jsons.filter (fun q => q == "annotations.json" || q == "coco.json") = [p] →
        find_coco_json jsons = .ok p)) ∧
    (1 < jsons.length →
      (jsons.filter (fun q => q == "annotations.json" || q == "coco.json")).length ≠ 1 →
      find_coco_json jsons = .error (.ambiguous (ambigMsg jsons))) := by
  refine ⟨?_, ?_, ?_, ?_⟩
  · rintro rfl
    rfl
  · rintro x rfl
    rfl
  · intro hlen p hp
    rw [find_coco_json.eq_def, if_neg (by omega), if_pos hlen]
    simp only [hp]
  · intro hlen hne
    rw [find_coco_json.eq_def, if_neg (by omega), if_pos hlen]
    cases hp : jsons.filter (fun q => q == "annotations.json" || q == "coco.json") with
    | nil => simp [hp]
    | cons a t =>
      cases t with
      | nil => exact absurd (by simp [hp]) hne
      | cons b t2 => simp [hp]

/-- C4 witness: a lone oddly-named file is returned; `annotations.json` wins
among two; two non-preferred names are ambiguous with the listing message. -/
theorem c4_locator_witness :
    find_coco_json ["weird.json"] = .ok "weird.json" ∧
    find_coco_json ["a.json", "annotations.json"] = .ok "annotations.json" ∧
    find_coco_json ["a.json", "b.json"] =
      .error (.ambiguous (ambigMsg ["a.json", "b.json"])) := by
  refine ⟨(c4_locator _).2.1 _ rfl, ?_, ?_⟩
  · exact (c4_locator ["a.json", "annotations.json"]).2.2.1 (by decide)
      "annotations.json" (by decide)
  · exact (c4_locator ["a.json", "b.json"]).2.2.2 (by decide) (by decide)

/-- C5: the Loader.  `load_coco` fails iff one of the three required keys is
missing, the error message names a missing key, and when all three are
present the parsed data comes back unchanged. -/
theorem c5_loader {α : Type} (d : List (String × α)) :
    ((∃ m, load_coco d = .error m) ↔ ∃ k ∈ requiredKeys, hasKey d k = false) ∧
    ((∀ k ∈ requiredKeys, hasKey d k = true) → load_coco d = .ok d) ∧
    (∀ m, load_coco d = .error m →
      ∃ k ∈ requiredKeys, hasKey d k = false ∧ m = missingMsg k) := by
  refine ⟨⟨?_, ?_⟩, ?_, ?_⟩
  · rintro ⟨m, hm⟩
    rw [load_coco] at hm
    cases hf : requiredKeys.find? (fun k => ! hasKey d k) with
    | none => rw [hf] at hm; exact absurd hm (by simp)
    | some k =>
      refine ⟨k, List.mem_of_find?_eq_some hf, ?_⟩
      have := List.find?_some hf
      simpa using this
  · rintro ⟨k, hk, hfalse⟩
    rw [load_coco]
    cases hf : requiredKeys.find? (fun k => ! hasKey d k) with
    | none =>
      rw [List.find?_eq_none] at hf
      exact absurd hfalse (by simpa using hf k hk)
    | some k2 => exact ⟨missingMsg k2, rfl⟩
  · intro hall
    rw [load_coco]
    cases hf : requiredKeys.find? (fun k => ! hasKey d k) with
    | none => rfl
    | some k =>
      have hmem := List.mem_of_find?_eq_some hf
      have := List.find?_some hf
      rw [hall k hmem] at this
      exact absurd this (by simp)
  · intro m hm
    rw [load_coco] at hm
    cases hf : requiredKeys.find? (fun k => ! hasKey d k) with
    | none => rw [hf] at hm; exact absurd hm (by simp)
    | some k =>
      rw [hf] at hm
      refine ⟨k, List.mem_of_find?_eq_some hf, by simpa using List.find?_some hf, ?_⟩
      simpa using hm.symm

/-- C5 witness: data missing `categories` fails naming it; the full data is
returned unchanged. -/
theorem c5_loader_witness :
    load_coco [("images", (0 : Nat)), ("annotations", 0), ("categories", 0)] =
      .ok [("images", 0), ("annotations", 0), ("categories", 0)] ∧
    ∃ k ∈ requiredKeys,
      hasKey [("images", (0 : Nat)), ("annotations", 0)] k = false ∧
      missingMsg "categories" = missingMsg k := by
  refine ⟨(c5_loader _).2.1 (by decide), ?_⟩
  exact (c5_loader [("images", (0 : Nat)), ("annotations", 0)]).2.2
    (missingMsg "categories") (by rfl)

theorem pyGet_assignColors (cs : List String) (l : List Nat) (hl : l.Nodup)
    (i0 j : Nat) (hj : j < l.length) :
    pyGet (assignColors cs l i0) (l.get ⟨j, hj⟩) =
      some (cs.getD ((i0 + j) % cs.length) "") := by
  induction l generalizing i0 j with
  | nil => exact absurd hj (by simp)
  | cons a t ih =>
    cases j with
    | zero =>
      simp [List.get, assignColors, pyGet_cons]
    | succ j2 =>
      have hj2 : j2 < t.length := by simpa using hj
      have hmem : t.get ⟨j2, hj2⟩ ∈ t := List.get_mem t j2 hj2
      have hne : ¬ a = t.get ⟨j2, hj2⟩ := by
        intro h
        rw [List.nodup_cons] at hl
        exact hl.1 (h ▸ hmem)
      have heq := ih hl.of_cons (i0 + 1) j2 hj2
      have harith : i0 + 1 + j2 = i0 + (j2 + 1) := by omega
      rw [harith] at heq
      simp only [List.get, assignColors, pyGet_cons, if_neg hne]
      exact heq

theorem sortNat_sorted (l : List Nat) : List.Sorted (· ≤ ·) (sortNat l) :=
  List.sorted_insertionSort _ l

theorem sortNat_perm (l : List Nat) : (sortNat l).Perm l :=
  List.perm_insertionSort _ l

theorem sortNat_eq_of_perm (l1 l2 : List Nat) (h : l1.Perm l2) :
    sortNat l1 = sortNat l2 := by
  refine List.eq_of_perm_of_sorted ?_ (sortNat_sorted l1) (sortNat_sorted l2)
  exact ((sortNat_perm l1).trans h).trans (sortNat_perm l2).symm

/-- C6: the Color Assigner sorts the category ids ascending (`sortNat` is
sorted and a permutation of the ids) and hands out palette colors
cyclically in that order: the id at sorted position `i` maps to color
`i % length`.  The result depends only on the set of ids, not on the
section order. -/
theorem c6_color_assigner (colors : List String) (cbi : List (Nat × Cat))
    (hnd : (cbi.map (·.1)).Nodup) :
    List.Sorted (· ≤ ·) (sortNat (cbi.map (·.1))) ∧
    (sortNat (cbi.map (·.1))).Perm (cbi.map (·.1)) ∧
    (∀ i (hi : i < (sortNat (cbi.map (·.1))).length),
      pyGet (category_color_map colors cbi) ((sortNat (cbi.map (·.1))).get ⟨i, hi⟩) =
        some ((effectiveColors colors).getD (i % (effectiveColors colors).length) "")) ∧
    (∀ cbi2 : List (Nat × Cat), (cbi2.map (·.1)).Perm (cbi.map (·.1)) →
      category_color_map colors cbi2 = category_color_map colors cbi) := by
  refine ⟨sortNat_sorted _, sortNat_perm _, ?_, ?_⟩
  · intro i hi
    have hnd2 : (sortNat (cbi.map (·.1))).Nodup :=
      ((sortNat_perm (cbi.map (·.1))).symm).nodup hnd
    have := pyGet_assignColors (effectiveColors colors) _ hnd2 0 i hi
    rw [Nat.zero_add] at this
    exact this
  · intro cbi2 hperm
    rw [category_color_map, category_color_map, sortNat_eq_of_perm _ _ hperm]

/-- C6 witness: for category ids `[5, 1, 3]` (any names) and an empty
matplotlib palette (so the `C0..C9` fallback), id 1 gets color 0, id 3
color 1, id 5 color 2 — the spec example. -/
theorem c6_color_assigner_witness :
    pyGet (category_color_map [] [(5, ⟨5, "x"⟩), (1, ⟨1, "y"⟩), (3, ⟨3, "z"⟩)]) 1 =
      some "C0" ∧
    pyGet (category_color_map [] [(5, ⟨5, "x"⟩), (1, ⟨1, "y"⟩), (3, ⟨3, "z"⟩)]) 3 =
      some "C1" ∧
    pyGet (category_color_map [] [(5, ⟨5, "x"⟩), (1, ⟨1, "y"⟩), (3, ⟨3, "z"⟩)]) 5 =
      some "C2" := by
  have h := c6_color_assigner [] [(5, ⟨5, "x"⟩), (1, ⟨1, "y"⟩), (3, ⟨3, "z"⟩)]
    (by decide)
  exact ⟨h.2.2.1 0 (by decide), h.2.2.1 1 (by decide), h.2.2.1 2 (by decide)⟩

theorem parseSubset_empty : parseSubset "" = [] := rfl

theorem processImages_congr (fs : FS) (folder : String) (a1 a2 : Option (List String))
    (cats : List (Nat × Cat)) (cmap : List (Nat × String))
    (abi : List (Nat × List Ann)) (dpi : ℚ)
    (h : ∀ n, passesFilter a1 n = passesFilter a2 n) :
    ∀ (items : List (Nat × CocoImage)) (p : Nat) (m : List String),
      processImages fs folder a1 cats cmap abi dpi items p m =
        processImages fs folder a2 cats cmap abi dpi items p m := by
  intro items
  induction items with
  | nil => intro p m; rfl
  | cons x rest ih =>
    intro p m
    obtain ⟨iid, img⟩ := x
    simp only [processImages, h]
    by_cases hp : passesFilter a2 img.file_name = false
    · simp only [if_pos hp]
      exact ih p m
    · simp only [if_neg hp]
      by_cases hex : fs.ex (pathOf folder img.file_name) = false
      · simp only [if_pos hex]
        exact ih p _
      · simp only [if_neg hex]
        rcases hdraw : draw_image_with_bboxes fs.decode (pathOf folder img.file_name)
            (lookupAnns abi iid) cats cmap dpi with e | f <;> simp only [hdraw]
        exact ih _ m

/-- C3: a non-empty `--subset` argument whose comma-separated entries are
all empty or whitespace-only parses to the empty name set, which is falsy,
so the filter guard never fires: every image passes, and the run is the
same as with no subset argument at all. -/
theorem c3_whitespace_subset (s : String) (hs : s ≠ "")
    (hws : ∀ e ∈ splitChar ',' s.data, pyStrip e = []) :
    parseSubset s = [] ∧
    (∀ name, passesFilter (mkAllowed (some s)) name = true) ∧
    (∀ (fs : FS) (folder : String) (cats : List (Nat × Cat))
        (cmap : List (Nat × String)) (abi : List (Nat × List Ann)) (dpi : ℚ)
        (items : List (Nat × CocoImage)) (p : Nat) (m : List String),
      processImages fs folder (mkAllowed (some s)) cats cmap abi dpi items p m =
        processImages fs folder none cats cmap abi dpi items p m) := by
  have hnil : parseSubset s = [] := by
    rw [parseSubset, List.filter_eq_nil_iff]
    intro t ht
    simp only [List.mem_map] at ht
    obtain ⟨e, he, rfl⟩ := ht
    rw [hws e he]
    simp
  have hpass : ∀ name, passesFilter (mkAllowed (some s)) name = true := by
    intro name
    simp [mkAllowed, hs, passesFilter, hnil]
  refine ⟨hnil, hpass, ?_⟩
  intro fs folder cats cmap abi dpi items p m
  exact processImages_congr fs folder _ none cats cmap abi dpi
    (fun n => by rw [hpass n]; rfl) items p m

/-- C3 witness: the subset string of one comma surrounded by spaces parses
to the empty set and filters nothing. -/
theorem c3_whitespace_subset_witness :
    parseSubset " , " = [] ∧
    passesFilter (mkAllowed (some " , ")) "img1.png" = true := by
  have h := c3_whitespace_subset " , " (by decide) (by decide)
  exact ⟨h.1, h.2.1 "img1.png"⟩

/-- C2 counterexample: with the subset argument a bare comma, the parsed
name set is empty, yet the lone image `a.png` is still processed
(`processed = 1`) although its name is not a member of that empty set —
refuting "an image is processed only if its file name is a member of the
parsed set" as universally stated. -/
theorem c2_subset_counterexample :
    runMain ⟨fun _ => true, fun _ => .ok ⟨10, 10⟩⟩ "d" [] (some ",")
        ⟨[⟨1, "a.png"⟩], [], []⟩ 120 = .ok (1, []) ∧
    parseSubset "," = [] :=
  ⟨rfl, rfl⟩

/-- C2 amended: whenever the parsed subset set is non-empty, images whose
file names are outside the set are skipped — the loop behaves exactly as if
they were absent; entries matching no image simply match nothing, without
error.  (When the parsed set is empty, the filter is disabled; see C3.) -/
theorem c2_subset_amended (s : String) (hne : parseSubset s ≠ []) (fs : FS)
    (folder : String) (cats : List (Nat × Cat)) (cmap : List (Nat × String))
    (abi : List (Nat × List Ann)) (dpi : ℚ)
    (items : List (Nat × CocoImage)) (p : Nat) (m : List String) :
    processImages fs folder (mkAllowed (some s)) cats cmap abi dpi items p m =
      processImages fs folder (mkAllowed (some s)) cats cmap abi dpi
        (items.filter (fun x => (parseSubset s).contains x.2.file_name)) p m := by
  have hs : s ≠ "" := fun h => hne (h ▸ parseSubset_empty)
  have hmk : mkAllowed (some s) = some (parseSubset s) := by
    rw [mkAllowed, if_neg hs]
  have hie : (parseSubset s).isEmpty = false := by
    cases hps : parseSubset s with
    | nil => exact absurd hps hne
    | cons a t => rfl
  have hpf : ∀ n, passesFilter (mkAllowed (some s)) n = (parseSubset s).contains n := by
    intro n
    rw [hmk]
    simp [passesFilter, hie]
  induction items generalizing p m with
  | nil => rfl
  | cons x rest ih =>
    obtain ⟨iid, img⟩ := x
    rw [List.filter_cons]
    by_cases hc : (parseSubset s).contains img.file_name = true
    · have hnotfalse : ¬ passesFilter (mkAllowed (some s)) img.file_name = false := by
        rw [hpf, hc]
        simp
      simp only [hc, if_pos rfl]
      simp only [processImages, if_neg hnotfalse]
      by_cases hex : fs.ex (pathOf folder img.file_name) = false
      · simp only [if_pos hex]
        exact ih _ _
      · simp only [if_neg hex]
        rcases hdraw : draw_image_with_bboxes fs.decode (pathOf folder img.file_name)
            (lookupAnns abi iid) cats cmap dpi with e | f <;> simp only [hdraw]
        exact ih _ _
    · have hcf : (parseSubset s).contains img.file_name = false := by
        simpa using hc
      have hfalse : passesFilter (mkAllowed (some s)) img.file_name = false := by
        rw [hpf, hcf]
      simp only [hcf, Bool.false_eq_true, if_neg (by simp : ¬ False)]
      simp only [processImages, if_pos hfalse]
      exact ih _ _

/-- C2 witness: with subset `a.png`, the run over images `a.png, b.png`
equals the run over `a.png` alone — `b.png` is filtered out, and the
amended theorem applies with the non-empty parsed set. -/
theorem c2_subset_amended_witness :
    processImages ⟨fun _ => true, fun _ => .ok ⟨10, 10⟩⟩ "d" (mkAllowed (some "a.png"))
        [] [] [] 120 [(1, ⟨1, "a.png"⟩), (2, ⟨2, "b.png"⟩)] 0 [] =
      processImages ⟨fun _ => true, fun _ => .ok ⟨10, 10⟩⟩ "d" (mkAllowed (some "a.png"))
        [] [] [] 120 [(1, ⟨1, "a.png"⟩)] 0 [] := by
  have h := c2_subset_amended "a.png" (by decide) ⟨fun _ => true, fun _ => .ok ⟨10, 10⟩⟩
    "d" [] [] [] 120 [(1, ⟨1, "a.png"⟩), (2, ⟨2, "b.png"⟩)] 0 []
  exact h

theorem draw_ok_of_decode_ok (dec : String → Except String PILImg) (path : String)
    (anns : List Ann) (cats : List (Nat × Cat)) (cmap : List (Nat × String))
    (dpi : ℚ) (h : exOk (dec path) = true) :
    ∃ fig, draw_image_with_bboxes dec path anns cats cmap dpi = .ok fig := by
  rcases hd : dec path with e | im
  · rw [hd] at h
    exact absurd h (by simp [exOk])
  · exact ⟨_, by rw [draw_image_with_bboxes, hd]⟩

theorem draw_error_of_decode_error (dec : String → Except String PILImg) (path : String)
    (anns : List Ann) (cats : List (Nat × Cat)) (cmap : List (Nat × String))
    (dpi : ℚ) (h : exOk (dec path) = false) :
    ∃ e, draw_image_with_bboxes dec path anns cats cmap dpi = .error e := by
  rcases hd : dec path with e | im
  · exact ⟨_, by rw [draw_image_with_bboxes, hd]⟩
  · rw [hd] at h
    exact absurd h (by simp [exOk])

/-- C1 counterexample: two images both present on disk, the first failing to
decode.  The run aborts with the uncaught `RuntimeError` (non-zero exit)
instead of skipping `a.png`, warning, processing `b.png` and exiting 0 — so
a per-image decode failure is NOT non-fatal in this code. -/
theorem c1_decode_failure_counterexample :
    runMain ⟨fun _ => true, fun p => if p == "d/a.png" then .error "boom" else .ok ⟨10, 10⟩⟩
        "d" [] none ⟨[⟨1, "a.png"⟩, ⟨2, "b.png"⟩], [], []⟩ 120 =
      .error ("Failed to open image " ++ sq ++ "d/a.png" ++ sq ++ ": boom") :=
  rfl

/-- C1 amended: only the missing-file condition is non-fatal.  If every
image that passes the filter and exists on disk decodes successfully, the
loop completes normally (`main` then exits 0), counting those images and
accumulating the names of filter-passing images whose files are missing as
warnings.  If some filter-passing, existing image fails to decode, the loop
aborts with the propagated error (non-zero exit). -/
theorem c1_decode_failure_amended (fs : FS) (folder : String)
    (allowed : Option (List String)) (cats : List (Nat × Cat))
    (cmap : List (Nat × String)) (abi : List (Nat × List Ann)) (dpi : ℚ)
    (items : List (Nat × CocoImage)) (p0 : Nat) (m0 : List String) :
    ((∀ x ∈ items, passesFilter allowed x.2.file_name = true →
        fs.ex (pathOf folder x.2.file_name) = true →
        exOk (fs.decode (pathOf folder x.2.file_name)) = true) →
      processImages fs folder allowed cats cmap abi dpi items p0 m0 =
        .ok (p0 + (items.filter (fun x => passesFilter allowed x.2.file_name &&
                fs.ex (pathOf folder x.2.file_name))).length,
             m0 ++ (items.filter (fun x => passesFilter allowed x.2.file_name &&
                ! fs.ex (pathOf folder x.2.file_name))).map (fun x => x.2.file_name))) ∧
    ((∃ x ∈ items, passesFilter allowed x.2.file_name = true ∧
        fs.ex (pathOf folder x.2.file_name) = true ∧
        exOk (fs.decode (pathOf folder x.2.file_name)) = false) →
      ∃ e, processImages fs folder allowed cats cmap abi dpi items p0 m0 = .error e) := by
  constructor
  · induction items generalizing p0 m0 with
    | nil => intro hall; simp [processImages]
    | cons x rest ih =>
      intro hall
      obtain ⟨iid, img⟩ := x
      have hall2 : ∀ x ∈ rest, passesFilter allowed x.2.file_name = true →
          fs.ex (pathOf folder x.2.file_name) = true →
          exOk (fs.decode (pathOf folder x.2.file_name)) = true :=
        fun x hx => hall x (List.mem_cons_of_mem _ hx)
      by_cases hp : passesFilter allowed img.file_name = false
      · have hpb : passesFilter allowed img.file_name = false := hp
        simp only [processImages, if_pos hp, List.filter_cons, hpb,
          Bool.false_and, Bool.false_eq_true, if_neg (by simp : ¬ False)]
        exact ih p0 m0 hall2
      · have hpt : passesFilter allowed img.file_name = true := by
          simpa using hp
        by_cases hex : fs.ex (pathOf folder img.file_name) = false
        · simp only [processImages, if_neg hp, if_pos hex, List.filter_cons, hpt, hex,
            Bool.true_and, Bool.not_false, Bool.false_eq_true,
            if_neg (by simp : ¬ False), if_pos rfl, List.map_cons]
          rw [ih p0 (m0 ++ [img.file_name]) hall2]
          rw [List.append_assoc]
          rfl
        · have hext : fs.ex (pathOf folder img.file_name) = true := by
            simpa using hex
          have hdec : exOk (fs.decode (pathOf folder img.file_name)) = true :=
            hall ⟨iid, img⟩ (List.mem_cons_self _ _) hpt hext
          obtain ⟨fig, hfig⟩ := draw_ok_of_decode_ok fs.decode _
            (lookupAnns abi iid) cats cmap dpi hdec
          simp only [processImages, if_neg hp, if_neg hex, hfig, List.filter_cons, hpt,
            hext, Bool.true_and, Bool.not_true, Bool.false_eq_true,
            if_neg (by simp : ¬ False), if_pos rfl]
          rw [ih (p0 + 1) m0 hall2]
          have harith : p0 + 1 + (rest.filter (fun x => passesFilter allowed x.2.file_name &&
              fs.ex (pathOf folder x.2.file_name))).length =
              p0 + ((rest.filter (fun x => passesFilter allowed x.2.file_name &&
                fs.ex (pathOf folder x.2.file_name))).length + 1) := by
            omega
          rw [harith]
          rfl
  · induction items generalizing p0 m0 with
    | nil => intro hbad; simp at hbad
    | cons x rest ih =>
      intro hbad
      obtain ⟨iid, img⟩ := x
      by_cases hp : passesFilter allowed img.file_name = false
      · simp only [processImages, if_pos hp]
        refine ih p0 m0 ?_
        rcases hbad with ⟨y, hy, h1, h2, h3⟩
        rcases List.mem_cons.mp hy with rfl | hy2
        · rw [h1] at hp
          exact absurd hp (by simp)
        · exact ⟨y, hy2, h1, h2, h3⟩
      · by_cases hex : fs.ex (pathOf folder img.file_name) = false
        · simp only [processImages, if_neg hp, if_pos hex]
          refine ih p0 _ ?_
          rcases hbad with ⟨y, hy, h1, h2, h3⟩
          rcases List.mem_cons.mp hy with rfl | hy2
          · rw [h2] at hex
            exact absurd hex (by simp)
          · exact ⟨y, hy2, h1, h2, h3⟩
        · rcases hdec : exOk (fs.decode (pathOf folder img.file_name)) with _ | _
          · obtain ⟨e, he⟩ := draw_error_of_decode_error fs.decode _
              (lookupAnns abi iid) cats cmap dpi hdec
            exact ⟨e, by simp only [processImages, if_neg hp, if_neg hex, he]⟩
          · obtain ⟨fig, hfig⟩ := draw_ok_of_decode_ok fs.decode _
              (lookupAnns abi iid) cats cmap dpi hdec
            simp only [processImages, if_neg hp, if_neg hex, hfig]
            refine ih (p0 + 1) m0 ?_
            rcases hbad with ⟨y, hy, h1, h2, h3⟩
            rcases List.mem_cons.mp hy with rfl | hy2
            · rw [h3] at hdec
              exact absurd hdec (by simp)
            · exact ⟨y, hy2, h1, h2, h3⟩

/-- C1 witness: with one decodable image present and one missing file, the
loop finishes with `Except.ok`: one image processed, the missing one
accumulated as a warning — missing files are non-fatal. -/
theorem c1_decode_failure_amended_witness :
    processImages ⟨fun p => p == "d/a.png", fun _ => .ok ⟨10, 10⟩⟩ "d" none
        [] [] [] 120 [(1, ⟨1, "a.png"⟩), (2, ⟨2, "b.png"⟩)] 0 [] =
      .ok (1, ["b.png"]) := by
  have h := (c1_decode_failure_amended ⟨fun p => p == "d/a.png", fun _ => .ok ⟨10, 10⟩⟩
    "d" none [] [] [] 120 [(1, ⟨1, "a.png"⟩), (2, ⟨2, "b.png"⟩)] 0 []).1 (by decide)
  exact h

/-- C8: the Renderer draws, for every annotation, an unfilled
(`facecolor = "none"`) rectangle outline at the bbox's `(x, y)` with the
bbox's width and height, colored by the color map at its `category_id` —
the mapped color when present, the `white` fallback when the id is absent
from the map or the annotation — with line thickness
`max(1.5, 0.002 * min(image width, image height))`. -/
theorem c8_renderer_rects (dec : String → Except String PILImg) (path : String)
    (anns : List Ann) (cats : List (Nat × Cat)) (cmap : List (Nat × String))
    (dpi : ℚ) (im : PILImg) (him : dec path = .ok im) :
    ∃ fig, draw_image_with_bboxes dec path anns cats cmap dpi = .ok fig ∧
      fig.rects.length = anns.length ∧
      ∀ i (h1 : i < anns.length) (h2 : i < fig.rects.length),
        (fig.rects.get ⟨i, h2⟩).xy =
            ((anns.get ⟨i, h1⟩).bbox.x, (anns.get ⟨i, h1⟩).bbox.y) ∧
        (fig.rects.get ⟨i, h2⟩).w = (anns.get ⟨i, h1⟩).bbox.w ∧
        (fig.rects.get ⟨i, h2⟩).h = (anns.get ⟨i, h1⟩).bbox.h ∧
        (fig.rects.get ⟨i, h2⟩).facecolor = "none" ∧
        (fig.rects.get ⟨i, h2⟩).linewidth =
            max (3 / 2 : ℚ) (min im.width im.height * (2 / 1000)) ∧
        (∀ c col, (anns.get ⟨i, h1⟩).category_id = some c → pyGet cmap c = some col →
          (fig.rects.get ⟨i, h2⟩).edgecolor = col) ∧
        (((anns.get ⟨i, h1⟩).category_id = none ∨
            ∃ c, (anns.get ⟨i, h1⟩).category_id = some c ∧ pyGet cmap c = none) →
          (fig.rects.get ⟨i, h2⟩).edgecolor = "white") := by
  refine ⟨_, by rw [draw_image_with_bboxes, him], ?_, ?_⟩
  · simp
  · intro i h1 h2
    have hget : ∀ (h2 : i < (anns.map (fun a =>
        ({ xy := (a.bbox.x, a.bbox.y), w := a.bbox.w, h := a.bbox.h,
           linewidth := max (3 / 2 : ℚ) (min im.width im.height * (2 / 1000)),
           edgecolor := colorOf cmap a.category_id, facecolor := "none" } : Rect))).length),
        ((anns.map (fun a =>
          ({ xy := (a.bbox.x, a.bbox.y), w := a.bbox.w, h := a.bbox.h,
             linewidth := max (3 / 2 : ℚ) (min im.width im.height * (2 / 1000)),
             edgecolor := colorOf cmap a.category_id, facecolor := "none" } : Rect))).get ⟨i, h2⟩) =
          ({ xy := ((anns.get ⟨i, h1⟩).bbox.x, (anns.get ⟨i, h1⟩).bbox.y),
             w := (anns.get ⟨i, h1⟩).bbox.w, h := (anns.get ⟨i, h1⟩).bbox.h,
             linewidth := max (3 / 2 : ℚ) (min im.width im.height * (2 / 1000)),
             edgecolor := colorOf cmap (anns.get ⟨i, h1⟩).category_id,
             facecolor := "none" } : Rect) := by
      intro h2
      simp [List.get_eq_getElem, List.getElem_map]

    refine ⟨?_, ?_, ?_, ?_, ?_, ?_, ?_⟩ <;>
      simp only [hget]
    · intro c col hc hcol
      rw [List.get_eq_getElem] at hc
      simp [colorOf, hc, hcol]
    · rintro (hc | ⟨c, hc, hcol⟩)
      · rw [List.get_eq_getElem] at hc
        simp [colorOf, hc]
      · rw [List.get_eq_getElem] at hc
        simp [colorOf, hc, hcol]

/-- C8 witness: the renderer applied to the example annotation (bbox
`[10, 20, 30, 40]`, category 7 mapped to `C0`) on a 100x50 image. -/
theorem c8_renderer_rects_witness :
    ∃ fig, draw_image_with_bboxes exDec "p" [exAnn] exCats exCmap 120 = .ok fig ∧
      fig.rects.length = 1 ∧
      ∀ (h2 : 0 < fig.rects.length),
        (fig.rects.get ⟨0, h2⟩).xy = (10, 20) ∧
        (fig.rects.get ⟨0, h2⟩).facecolor = "none" ∧
        (fig.rects.get ⟨0, h2⟩).edgecolor = "C0" := by
  obtain ⟨fig, hfig, hlen, hprop⟩ :=
    c8_renderer_rects exDec "p" [exAnn] exCats exCmap 120 ⟨100, 50⟩ rfl
  refine ⟨fig, hfig, by simpa using hlen, ?_⟩
  intro h2
  obtain ⟨hxy, hw, hh, hface, hlw, hcol, hfall⟩ := hprop 0 (by simp) h2
  exact ⟨hxy, hface, hcol 7 "C0" rfl rfl⟩

/-- C10: the Renderer is deterministic — it is a pure function of the
decoded image, annotation list, category index, color map and dpi, so two
invocations on the same inputs yield the same figure: same canvas
dimensions, same rectangle placements, indeed the same drawing calls. -/
theorem c10_render_deterministic (dec : String → Except String PILImg)
    (path : String) (anns : List Ann) (cats : List (Nat × Cat))
    (cmap : List (Nat × String)) (dpi : ℚ) (f1 f2 : Fig)
    (h1 : draw_image_with_bboxes dec path anns cats cmap dpi = .ok f1)
    (h2 : draw_image_with_bboxes dec path anns cats cmap dpi = .ok f2) :
    f1.figsize = f2.figsize ∧ f1.rects = f2.rects ∧ f1 = f2 := by
  rw [h1] at h2
  cases h2
  exact ⟨rfl, rfl, rfl⟩

/-- C10 witness: two invocations of the renderer on the example inputs
agree (both produce `exFig`). -/
theorem c10_render_deterministic_witness :
    exFig.figsize = exFig.figsize ∧ exFig.rects = exFig.rects ∧ exFig = exFig :=
  c10_render_deterministic exDec "p" [exAnn] exCats exCmap 120 exFig exFig rfl rfl

theorem dropWhile_beq_of_not_mem (c : Char) (l : List Char) (h : c ∉ l) :
    l.dropWhile (· == c) = l := by
  induction l with
  | nil => rfl
  | cons a t ih =>
    have ha : ¬ a = c := by
      intro h2
      exact h (by rw [← h2]; exact List.mem_cons_self a t)
    have hb : (a == c) = false := by simp [ha]
    simp [List.dropWhile_cons, hb]

theorem data_eq_nil_iff (s : String) : s.data = [] ↔ s = "" := by
  constructor
  · intro h
    cases s
    simp_all
  · rintro rfl
    rfl

theorem stripChar_label_spec (n i2 : String) (hn : '#' ∉ n.data) (hi : '#' ∉ i2.data) :
    stripChar '#' (n ++ "#" ++ i2) = specLabel n i2 := by
  have hdata : (n ++ "#" ++ i2).data = n.data ++ '#' :: i2.data := by
    rw [String.data_append, String.data_append]
    simp
  rw [stripChar, hdata]
  rcases hnd : n.data with _ | ⟨c, t⟩
  · have hn0 : n = "" := (data_eq_nil_iff n).mp hnd
    have h1 : List.dropWhile (· == '#') ([] ++ '#' :: i2.data) = i2.data := by
      rw [List.nil_append, List.dropWhile_cons, if_pos (by simp)]
      exact dropWhile_beq_of_not_mem _ _ hi
    rw [h1]
    have h2 : '#' ∉ i2.data.reverse := by simpa using hi
    rw [dropWhile_beq_of_not_mem _ _ h2, List.reverse_reverse]
    rw [specLabel, if_pos hn0]
  · have hn0 : n ≠ "" := by
      intro h
      rw [h] at hnd
      simp at hnd
    have hc : ¬ c = '#' := by
      intro h
      apply hn
      rw [hnd, ← h]
      exact List.mem_cons_self c t
    have hfront : List.dropWhile (· == '#') ((c :: t) ++ '#' :: i2.data) =
        (c :: t) ++ '#' :: i2.data := by
      rw [List.cons_append, List.dropWhile_cons, if_neg (by simp [hc])]
    rw [hfront]
    have hnt : '#' ∉ (c :: t).reverse := by
      rw [← hnd]
      simpa using hn
    rcases hid : i2.data with _ | ⟨d, u⟩
    · have hi0 : i2 = "" := (data_eq_nil_iff i2).mp hid
      have hrev : ((c :: t) ++ '#' :: ([] : List Char)).reverse =
          '#' :: (c :: t).reverse := by
        rw [List.reverse_append]
        rfl
      rw [hrev, List.dropWhile_cons, if_pos (by simp),
        dropWhile_beq_of_not_mem _ _ hnt, List.reverse_reverse]
      rw [specLabel, if_neg hn0, if_pos hi0]
      rw [← hnd]
    · have hi0 : i2 ≠ "" := by
        intro h
        rw [h] at hid
        simp at hid
      have hrev : ((c :: t) ++ '#' :: d :: u).reverse =
          (d :: u).reverse ++ '#' :: (c :: t).reverse := by
        rw [List.reverse_append, List.reverse_cons]
        simp [List.append_assoc]
      rcases he : (d :: u).reverse with _ | ⟨e, r⟩
      · exact absurd (congrArg List.length he) (by simp)
      · have hemem : e ∈ d :: u := by
          have h3 : e ∈ (d :: u).reverse := by rw [he]; exact List.mem_cons_self e r
          exact List.mem_reverse.mp h3
        have hene : ¬ e = '#' := by
          intro h
          rw [hid] at hi
          exact hi (by rw [← h]; exact hemem)
        have hdrop : List.dropWhile (· == '#')
            ((d :: u).reverse ++ '#' :: (c :: t).reverse) =
            (d :: u).reverse ++ '#' :: (c :: t).reverse := by
          rw [he, List.cons_append, List.dropWhile_cons, if_neg (by simp [hene])]
        rw [hrev, hdrop, ← hrev, List.reverse_reverse]
        rw [specLabel, if_neg hn0, if_neg hi0]
        rw [← hid, ← hnd, ← hdata]

/-- C9 counterexample: for a category named `#a`, Python's `strip("#")`
removes the LEADING `#` of the name as well, so the rendered label is
`a#1`, while the claim's rule ("`<name>#<id>` with the separator omitted
when either part is empty") predicts `#a#1`. -/
theorem c9_label_counterexample :
    Except.map (fun f => f.texts.map TxtItem.text)
        (draw_image_with_bboxes exDec "p" [⟨1, some 7, some 1, ⟨0, 0, 10, 10⟩⟩]
          [(7, ⟨7, "#a"⟩)] [] 120) = .ok ["a#1"] ∧
    specLabel "#a" "1" = "#a#1" ∧
    ("a#1" : String) ≠ "#a#1" :=
  ⟨rfl, rfl, by decide⟩

/-- C9 amended: for every annotation the Renderer draws a filled label tag
(`linewidth 0`, face colored like the box) anchored above the box's
top-left corner and clamped to the canvas (`y` coordinate
`max(0, y - 18)`), sized to fit the text (`max(40, 7·len) x 18`), whose
text is `<category name>#<annotation id>` with every leading AND trailing
`#` stripped — which agrees with the claim's "separator omitted when
either part is empty" rule whenever neither part itself contains `#`. -/
theorem c9_label_amended (dec : String → Except String PILImg) (path : String)
    (anns : List Ann) (cats : List (Nat × Cat)) (cmap : List (Nat × String))
    (dpi : ℚ) (im : PILImg) (him : dec path = .ok im) :
    ∃ fig, draw_image_with_bboxes dec path anns cats cmap dpi = .ok fig ∧
      fig.tags.length = anns.length ∧
      fig.texts.length = anns.length ∧
      (∀ i (h1 : i < anns.length) (h2 : i < fig.tags.length)
          (h3 : i < fig.texts.length),
        (fig.tags.get ⟨i, h2⟩).xy =
            ((anns.get ⟨i, h1⟩).bbox.x, max 0 ((anns.get ⟨i, h1⟩).bbox.y - 18)) ∧
        (fig.tags.get ⟨i, h2⟩).w =
            max 40 (((labelOf cats (anns.get ⟨i, h1⟩)).length : ℚ) * 7) ∧
        (fig.tags.get ⟨i, h2⟩).h = 18 ∧
        (fig.tags.get ⟨i, h2⟩).linewidth = 0 ∧
        (fig.tags.get ⟨i, h2⟩).facecolor =
            colorOf cmap (anns.get ⟨i, h1⟩).category_id ∧
        (fig.texts.get ⟨i, h3⟩).text = labelOf cats (anns.get ⟨i, h1⟩) ∧
        (fig.texts.get ⟨i, h3⟩).text =
            stripChar '#' (catNameOf cats (anns.get ⟨i, h1⟩).category_id ++ "#" ++
              idStrOf (anns.get ⟨i, h1⟩).ann_id) ∧
        (fig.texts.get ⟨i, h3⟩).color = "black" ∧
        (fig.texts.get ⟨i, h3⟩).pos =
            ((anns.get ⟨i, h1⟩).bbox.x + 4, max 12 ((anns.get ⟨i, h1⟩).bbox.y - 4))) ∧
      (∀ name idStr : String, '#' ∉ name.data → '#' ∉ idStr.data →
        stripChar '#' (name ++ "#" ++ idStr) = specLabel name idStr) := by
  refine ⟨_, by rw [draw_image_with_bboxes, him], by simp, by simp, ?_,
    stripChar_label_spec⟩
  intro i h1 h2 h3
  refine ⟨?_, ?_, ?_, ?_, ?_, ?_, ?_, ?_, ?_⟩ <;>
    simp [List.get_eq_getElem, List.getElem_map, labelOf]

/-- C9 witness: on the example annotation (category `cat`, id 3, box at
`(10, 20)`), the text of the single label is `cat#3`. -/
theorem c9_label_amended_witness :
    ∃ fig, draw_image_with_bboxes exDec "p" [exAnn] exCats exCmap 120 = .ok fig ∧
      fig.texts.length = 1 ∧
      ∀ (h3 : 0 < fig.texts.length), (fig.texts.get ⟨0, h3⟩).text = "cat#3" := by
  obtain ⟨fig, hfig, hlt, hlx, hprop, hspec⟩ :=
    c9_label_amended exDec "p" [exAnn] exCats exCmap 120 ⟨100, 50⟩ rfl
  refine ⟨fig, hfig, by simpa using hlx, ?_⟩
  intro h3
  obtain ⟨-, -, -, -, -, htext, -, -, -⟩ :=
    hprop 0 (by simp) (by rw [hlt]; simp) h3
  rw [htext]
  rfl

end CocoViz
